import Mathlib

/-!
Shallow embedding of `src/packages/wxt/src/core/generate-wxt-dir.ts`.

The pipeline builds a list of declaration entries (module references and
file entries), lets an extension hook append more entries, composes a main
declaration file of reference directives, and finally writes every file
entry below the output root (`wxt.config.wxtDir`).

External collaborators (node:path, fs, the hook dispatcher, and helper
modules that are not part of the sources under `src/`) are modelled
explicitly; every such model carries a doc comment saying what it stands
for. All other definitions are direct translations of the TypeScript in
`generate-wxt-dir.ts`.

Literal braces inside string literals are written with the escapes \x7b
and \x7d.
-/

/-! ## POSIX path model (node:path `resolve` / `relative`) -/

/-- Split a character list at every occurrence of `sep`, keeping empty
pieces, accumulating the current piece in reverse. -/
def splitOnCharAux (sep : Char) : List Char → List Char → List String
  | [], acc => [String.mk acc.reverse]
  | c :: cs, acc =>
      if c = sep then String.mk acc.reverse :: splitOnCharAux sep cs []
      else splitOnCharAux sep cs (c :: acc)

/-- Model of the JavaScript `split` builtin for a one-character separator:
all pieces between separators, empty pieces included, and the empty string
yields one empty piece. -/
def splitOnChar (sep : Char) (s : String) : List String :=
  splitOnCharAux sep s.data []

/-- Model of the JavaScript `startsWith` builtin. -/
def strStartsWith (s pre : String) : Bool :=
  s.data.take pre.data.length == pre.data

/-- Segments of a slash-separated path, as produced by splitting on `/`. -/
def pathSegs (p : String) : List String := splitOnChar '/' p

/-- Collapse path segments the way node:path normalization does for an
absolute POSIX path: empty and `.` segments vanish, `..` pops the previous
segment (excess `..` at the root is dropped). -/
def collapseSegs (segs : List String) : List String :=
  segs.foldl
    (fun acc seg =>
      if seg = "" || seg = "." then acc
      else if seg = ".." then acc.dropLast
      else acc ++ [seg])
    []

/-- Model of node:path `resolve(base, p)` for POSIX paths, assuming `base`
is absolute (the orchestrator only calls it with the absolute
`wxt.config.wxtDir`). -/
def resolvePath (base p : String) : String :=
  if strStartsWith p "/" then "/" ++ String.intercalate "/" (collapseSegs (pathSegs p))
  else "/" ++ String.intercalate "/" (collapseSegs (pathSegs (base ++ "/" ++ p)))

/-- Length of the common prefix of two segment lists. -/
def commonPrefixLen : List String → List String → Nat
  | x :: xs, y :: ys => if x = y then commonPrefixLen xs ys + 1 else 0
  | _, _ => 0

/-- Model of node:path `relative(fr, p)` for absolute POSIX paths: drop the
common prefix, go up once per remaining segment of `fr`, then descend into
the remaining segments of `p`; equal paths give the empty string. -/
def relativePath (fr p : String) : String :=
  let f := collapseSegs (pathSegs fr)
  let t := collapseSegs (pathSegs p)
  if f = t then ""
  else String.intercalate "/" (List.replicate (f.length - commonPrefixLen f t) ".." ++ t.drop (commonPrefixLen f t))

/-- Modelled from the spec: `normalizePath` lives in
`src/packages/wxt/src/core/utils/paths.ts`, which is not included under
`src/`; the spec (section 4.2, step 4) says it normalizes a path to
forward-slash form, so backslashes become forward slashes. -/
def normalizePath (p : String) : String :=
  String.mk (p.data.map (fun c => if c = '\\' then '/' else c))

/-! ## Entry model (`WxtDirEntry` from `../types`) -/

/-- Declaration entry: either a reference to an installed type package, or
a file to write (`path` relative to the output root, full `text`, and the
`tsReference` flag telling the main declaration to reference it). The
TypeScript type marks `tsReference` optional; an absent flag is `false`. -/
inductive WxtDirEntry where
  | module (id : String)
  | file (path text : String) (tsReference : Bool)
deriving DecidableEq

/-- True exactly on module-reference entries. -/
def WxtDirEntry.isModule : WxtDirEntry → Bool
  | .module _ => true
  | .file _ _ _ => false

/-- Text carried by a file entry (empty for module entries). -/
def entryText : WxtDirEntry → String
  | .module _ => ""
  | .file _ t _ => t

/-- Output-root-relative path carried by a file entry (empty for module
entries). -/
def entryPath : WxtDirEntry → String
  | .module _ => ""
  | .file p _ _ => p

/-! ## Inputs of one generation pass -/

/-- Discovered entrypoint, reduced to what the paths generator consumes:
a base output name and whether it is an HTML entrypoint. -/
structure Entrypoint where
  name : String
  isHtml : Bool
deriving DecidableEq

/-- Modelled from the spec: `getEntrypointBundlePath` lives in
`src/packages/wxt/src/core/utils/entrypoints.ts`, which is not included
under `src/`; the spec (section 4.2, step 1) says each entrypoint gets its
bundle path with extension `.html` for HTML entrypoints and `.js`
otherwise. -/
def getEntrypointBundlePath (e : Entrypoint) : String :=
  e.name ++ (if e.isHtml then ".html" else ".js")

/-- Raw value of one key of the default-locale catalog (spec section 6:
`\x7b message: string, description?: string \x7d`). -/
structure RawMessage where
  message : String
  description : Option String := none
deriving DecidableEq

/-- Parsed i18n message (spec section 3):
`\x7b name: string, message?: string, description?: string \x7d`. -/
structure Message where
  name : String
  message : Option String := none
  description : Option String := none
deriving DecidableEq

/-- Modelled from the spec: `parseI18nMessages` lives in
`src/packages/wxt/src/core/utils/i18n.ts`, which is not included under
`src/`; the spec (sections 3 and 6) derives one `Message` per key of the
raw catalog, in catalog order, and an empty catalog yields an empty
message set. -/
def parseI18nMessages (raw : List (String × RawMessage)) : List Message :=
  raw.map (fun kv => { name := kv.1, message := some kv.2.message, description := kv.2.description })

/-- Environment-variable declaration produced by the globals helpers
(spec section 3: `\x7b name: string, type: string \x7d`). -/
structure GlobalDecl where
  name : String
  type : String
deriving DecidableEq

instance exceptDecEq {ε α : Type} [DecidableEq ε] [DecidableEq α] : DecidableEq (Except ε α) := fun x y =>
  match x, y with
  | Except.ok a, Except.ok b =>
      if h : a = b then isTrue (by rw [h]) else isFalse (by intro he; cases he; exact h rfl)
  | Except.error a, Except.error b =>
      if h : a = b then isTrue (by rw [h]) else isFalse (by intro he; cases he; exact h rfl)
  | Except.ok _, Except.error _ => isFalse (by intro he; cases he)
  | Except.error _, Except.ok _ => isFalse (by intro he; cases he)

/-- All inputs one generation pass consumes. Collaborator effects are
made explicit: `i18nSource` is `none` when the default-locale file is
absent, `some (Except.error ())` when its JSON is malformed, and
`some (Except.ok raw)` when it parses; `hookPublicPaths` are the paths the
`prepare:publicPaths` hook appends; `hookEntries` are the entries the
`prepare:types` hook appends; `buildGlobals` and `entrypointGlobals` are
the results of `getGlobals` on the config and `getEntrypointGlobals` on the empty name
(modelled from the spec, section 4.4, as name/type pairs, build-wide
first); `publicFiles` is the result of `getPublicFiles()`. -/
structure PassInput where
  userModules : List (String × Bool)
  entrypoints : List Entrypoint
  publicFiles : List String
  hookPublicPaths : List String
  i18nSource : Option (Except Unit (List (String × RawMessage)))
  buildGlobals : List GlobalDecl
  entrypointGlobals : List GlobalDecl
  extensionApiChrome : Bool
  aliases : List (String × String)
  root : String
  outBaseDir : String
  wxtDir : String
  hookEntries : List WxtDirEntry
deriving DecidableEq

/-! ## Paths generator (`getPathsDeclarationEntry`) -/

/-- Model of the default JavaScript array sort on strings (lexicographic
code-unit comparison; on the paths involved this agrees with the `String`
order, and insertion sort is stable like the required sort). -/
def sortStrings (l : List String) : List String :=
  List.insertionSort (fun a b : String => a ≤ b) l

/-- Combined public path list: entrypoint bundle paths, then the public
files, then the paths appended by the `prepare:publicPaths` hook. -/
def publicPaths (i : PassInput) : List String :=
  i.entrypoints.map getEntrypointBundlePath ++ i.publicFiles ++ i.hookPublicPaths

/-- Rendered members of the `PublicPath` union, one per path, built from
the normalized paths in sorted order. -/
def pathsUnionLines (paths : List String) : List String :=
  (sortStrings (paths.map normalizePath)).map (fun p => "    | \"/" ++ p ++ "\"")

/-- Part of the paths template before the single `\x7b\x7b union \x7d\x7d`
placeholder. -/
def pathsTemplatePre : String :=
  "// Generated by wxt\nimport \"wxt/browser\";\n\ndeclare module \"wxt/browser\" \x7b\n  export type PublicPath =\n"

/-- Part of the paths template after the placeholder. -/
def pathsTemplatePost : String :=
  "\n  type HtmlPublicPath = Extract<PublicPath, `$\x7bstring\x7d.html`>\n  export interface WxtRuntime \x7b\n    getURL(path: PublicPath): string;\n    getURL(path: `$\x7bHtmlPublicPath\x7d$\x7bstring\x7d`): string;\n  \x7d\n\x7d\n"

/-- Translation of `getPathsDeclarationEntry`: joins the rendered union
members, substitutes the `never` fallback for an empty join (the
JavaScript `unions || fallback`), and splices the result into the
template. -/
def getPathsDeclarationEntry (i : PassInput) : WxtDirEntry :=
  let unions := String.intercalate "\n" (pathsUnionLines (publicPaths i))
  WxtDirEntry.file "types/paths.d.ts"
    (pathsTemplatePre ++ (if unions = "" then "    | never" else unions) ++ pathsTemplatePost)
    true

/-! ## I18n generator (`getI18nDeclarationEntry`) -/

/-- Model of the JavaScript truthiness test on an optional string:
`undefined` and the empty string are falsy. -/
def jsTruthy : Option String → Bool
  | none => false
  | some s => !(s == "")

/-- Model of the JavaScript `trimEnd` builtin: drop trailing whitespace. -/
def trimEnd (s : String) : String :=
  String.mk ((s.data.reverse.dropWhile Char.isWhitespace).reverse)

/-- Translation of the inner `renderGetMessageOverload`: an optional JSDoc
block from the description lines and the quoted translation, followed by
one `getMessage` call signature whose first parameter has type
`keyType`. -/
def renderGetMessageOverload (keyType : String) (description translation : Option String) : String :=
  let dLines := if jsTruthy description then splitOnChar '\n' (description.getD "") else []
  let commentLines :=
    dLines ++
      (if jsTruthy translation then
        (if dLines.length > 0 then [""] else []) ++ ["\"" ++ translation.getD "" ++ "\""]
      else [])
  let comment :=
    if commentLines.length > 0 then
      "/**\n" ++ String.intercalate "\n" (commentLines.map (fun line => trimEnd ("     * " ++ line))) ++ "\n     */\n    "
    else ""
  "    " ++ comment ++ "getMessage(\n      messageName: " ++ keyType ++ ",\n      substitutions?: string | string[],\n      options?: GetMessageOptions,\n    ): string;"

/-- The overload list: one per-key overload per message (key type is the
quoted literal key, JSDoc from description and translation), then the one
catch-all overload whose key type is the union of all quoted keys. -/
def i18nOverrides (messages : List Message) : List String :=
  messages.map (fun m => renderGetMessageOverload ("\"" ++ m.name ++ "\"") m.description m.message)
    ++ [renderGetMessageOverload (String.intercalate " | " (messages.map (fun m => "\"" ++ m.name ++ "\""))) none none]

/-- Part of the i18n template before the single
`\x7b\x7b overrides \x7d\x7d` placeholder. -/
def i18nTemplatePre : String :=
  "// Generated by wxt\nimport \"wxt/browser\";\n\ndeclare module \"wxt/browser\" \x7b\n  /**\n   * See https://developer.chrome.com/docs/extensions/reference/i18n/#method-getMessage\n   */\n  interface GetMessageOptions \x7b\n    /**\n     * See https://developer.chrome.com/docs/extensions/reference/i18n/#method-getMessage\n     */\n    escapeLt?: boolean\n  \x7d\n\n  export interface WxtI18n extends I18n.Static \x7b\n"

/-- Part of the i18n template after the placeholder. -/
def i18nTemplatePost : String := "\n  \x7d\n\x7d\n"

/-- Translation of `getI18nDeclarationEntry`: an absent locale file yields
the empty catalog, a malformed one propagates the JSON parse error, a
parsed one is turned into messages; the overloads are joined and spliced
into the template. -/
def getI18nDeclarationEntry (i : PassInput) : Except Unit WxtDirEntry :=
  match i.i18nSource with
  | some (Except.error e) => Except.error e
  | some (Except.ok raw) =>
      Except.ok (WxtDirEntry.file "types/i18n.d.ts"
        (i18nTemplatePre ++ String.intercalate "\n" (i18nOverrides (parseI18nMessages raw)) ++ i18nTemplatePost)
        true)
  | none =>
      Except.ok (WxtDirEntry.file "types/i18n.d.ts"
        (i18nTemplatePre ++ String.intercalate "\n" (i18nOverrides (parseI18nMessages [])) ++ i18nTemplatePost)
        true)

/-! ## Globals generator (`getGlobalsDeclarationEntry`) -/

/-- Translation of `getGlobalsDeclarationEntry`: build-wide globals first,
then entrypoint globals, one read-only member each. -/
def getGlobalsDeclarationEntry (i : PassInput) : WxtDirEntry :=
  WxtDirEntry.file "types/globals.d.ts"
    (String.intercalate "\n"
      (["// Generated by wxt", "interface ImportMetaEnv \x7b"]
        ++ (i.buildGlobals ++ i.entrypointGlobals).map (fun g => "  readonly " ++ g.name ++ ": " ++ g.type ++ ";")
        ++ ["\x7d", "interface ImportMeta \x7b", "  readonly env: ImportMetaEnv", "\x7d", ""]))
    true

/-! ## TsConfig generator (`getTsConfigEntry`) -/

/-- Translation of the inner `getTsconfigPath`: the normalized path of
`p` relative to `dir`, with `./` prepended when the result does not
already start with `.` or `/`. -/
def getTsconfigPath (dir p : String) : String :=
  let res := normalizePath (relativePath dir p)
  if strStartsWith res "." || strStartsWith res "/" then res else "./" ++ res

/-- Rendered alias lines of the tsconfig `paths` map: two per alias, the
alias itself and its `/*` glob form, both pointing at the rewritten
directory. -/
def aliasPathsLines (i : PassInput) : List String :=
  i.aliases.flatMap (fun ad =>
    ["      \"" ++ ad.1 ++ "\": [\"" ++ getTsconfigPath i.wxtDir ad.2 ++ "\"]",
     "      \"" ++ ad.1 ++ "/*\": [\"" ++ getTsconfigPath i.wxtDir ad.2 ++ "/*\"]"])

/-- Part of the tsconfig template before the rendered alias lines. -/
def tsconfigTemplatePre : String :=
  "\x7b\n  \"compilerOptions\": \x7b\n    \"target\": \"ESNext\",\n    \"module\": \"ESNext\",\n    \"moduleResolution\": \"Bundler\",\n    \"noEmit\": true,\n    \"esModuleInterop\": true,\n    \"forceConsistentCasingInFileNames\": true,\n    \"resolveJsonModule\": true,\n    \"strict\": true,\n    \"skipLibCheck\": true,\n    \"paths\": \x7b\n"

/-- Translation of `getTsConfigEntry`: the fixed compiler options, the
alias lines joined with commas, the include list (project root glob and
the main declaration), and the excluded intermediate output directory.
This entry carries no `tsReference` flag. -/
def getTsConfigEntry (i : PassInput) : WxtDirEntry :=
  WxtDirEntry.file "tsconfig.json"
    (tsconfigTemplatePre
      ++ String.intercalate ",\n" (aliasPathsLines i)
      ++ "\n    \x7d\n  \x7d,\n  \"include\": [\n    \"" ++ getTsconfigPath i.wxtDir i.root
      ++ "/**/*\",\n    \"./wxt.d.ts\"\n  ],\n  \"exclude\": [\"" ++ getTsconfigPath i.wxtDir i.outBaseDir ++ "\"]\n\x7d")
    false

/-! ## Main-declaration composer (`getMainDeclarationEntry`) -/

/-- Reference directive for an installed type package. -/
def packageRefLine (id : String) : String :=
  "/// <reference types=\"" ++ id ++ "\" />"

/-- Output-root-relative path used in a file reference directive: the
entry path resolved below the output root and taken relative to it again,
normalized. -/
def fileRefPath (wxtDir p : String) : String :=
  normalizePath (relativePath wxtDir (resolvePath wxtDir p))

/-- Reference directive for a generated file. -/
def fileRefLine (wxtDir p : String) : String :=
  "/// <reference types=\"./" ++ fileRefPath wxtDir p ++ "\" />"

/-- Lines of the main declaration: the marker comment, then (in entry
order) one package reference per module entry and one file reference per
file entry whose `tsReference` flag is set; other file entries contribute
nothing. Translation of the `forEach`/`push` loop. -/
def mainDeclLines (wxtDir : String) (references : List WxtDirEntry) : List String :=
  references.foldl
    (fun lines ref =>
      match ref with
      | WxtDirEntry.module m => lines ++ [packageRefLine m]
      | WxtDirEntry.file p _ tsRef => if tsRef then lines ++ [fileRefLine wxtDir p] else lines)
    ["// Generated by wxt"]

/-- The directive an entry contributes to the main declaration, if any. -/
def refDirective (wxtDir : String) : WxtDirEntry → Option String
  | WxtDirEntry.module m => some (packageRefLine m)
  | WxtDirEntry.file p _ tsRef => if tsRef then some (fileRefLine wxtDir p) else none

/-- Translation of `getMainDeclarationEntry`: the joined lines plus a
trailing newline, at path `wxt.d.ts`, with no `tsReference` flag. -/
def getMainDeclarationEntry (wxtDir : String) (references : List WxtDirEntry) : WxtDirEntry :=
  WxtDirEntry.file "wxt.d.ts" (String.intercalate "\n" (mainDeclLines wxtDir references) ++ "\n") false

/-! ## Orchestrator (`generateWxtDir`) -/

/-- Entry collection before the main declaration is appended: the
hard-coded `wxt/vite-builder-env` module entry, the node-module user
modules, the paths, i18n and globals entries, the `@types/chrome` module
entry when the chrome API flavor is configured, the tsconfig entry, and
finally the entries appended by the `prepare:types` hook. -/
def preMainEntries (i : PassInput) (i18nEntry : WxtDirEntry) : List WxtDirEntry :=
  [WxtDirEntry.module "wxt/vite-builder-env"]
    ++ i.userModules.filterMap (fun m => if m.2 then some (WxtDirEntry.module m.1) else none)
    ++ [getPathsDeclarationEntry i, i18nEntry, getGlobalsDeclarationEntry i]
    ++ (if i.extensionApiChrome then [WxtDirEntry.module "@types/chrome"] else [])
    ++ [getTsConfigEntry i]
    ++ i.hookEntries

/-- Finalized entry collection of one pass: the pre-main entries followed
by the main declaration composed from exactly those entries. A failure of
the i18n generator propagates. -/
def buildEntries (i : PassInput) : Except Unit (List WxtDirEntry) :=
  match getI18nDeclarationEntry i with
  | Except.error e => Except.error e
  | Except.ok i18nEntry =>
      let es := preMainEntries i i18nEntry
      Except.ok (es ++ [getMainDeclarationEntry i.wxtDir es])

/-- Write operation a single entry produces: file entries are written at
their path resolved below the output root, module entries write
nothing. -/
def writeOp (wxtDir : String) : WxtDirEntry → Option (String × String)
  | WxtDirEntry.module _ => none
  | WxtDirEntry.file p t _ => some (resolvePath wxtDir p, t)

/-- Translation of `generateWxtDir`: build the finalized entry collection,
then hand every file entry to the diffing writer; the pass fails, issuing
no writes at all, when entry collection fails. The result is the list of
(absolute path, content) pairs given to `writeFileIfDifferent`. -/
def generateWxtDir (i : PassInput) : Except Unit (List (String × String)) :=
  match buildEntries i with
  | Except.error e => Except.error e
  | Except.ok es => Except.ok (es.filterMap (writeOp i.wxtDir))

/-! ## Helper notions used by the statements -/

/-- The machine-generated marker all declaration files start with. -/
def genMarker : String := "// Generated by wxt"

/-- Proposition that `s` begins with the string `m`. -/
def textBeginsWith (m s : String) : Prop :=
  s.data.take m.data.length = m.data

instance (m s : String) : Decidable (textBeginsWith m s) := by
  unfold textBeginsWith
  infer_instance

/-- Content written at path `p`, if any (first match). -/
def lookupWrite (p : String) (ws : List (String × String)) : Option String :=
  (ws.find? (fun w => w.1 = p)).map Prod.snd

/-- Sample locale catalog with the two keys of the spec example. -/
def sampleCatalog : List (String × RawMessage) :=
  [("greet", { message := "Hello" }), ("farewell", { message := "Goodbye" })]

/-- Sample pass input used for concrete evaluations. -/
def sampleInput : PassInput :=
  { userModules := []
    entrypoints := [{ name := "popup", isHtml := true }, { name := "background", isHtml := false }]
    publicFiles := ["icon.png"]
    hookPublicPaths := []
    i18nSource := some (Except.ok sampleCatalog)
    buildGlobals := [{ name := "MANIFEST_VERSION", type := "3" }]
    entrypointGlobals := [{ name := "ENTRYPOINT", type := "string" }]
    extensionApiChrome := false
    aliases := [("@", "/project/src")]
    root := "/project"
    outBaseDir := "/project/.output"
    wxtDir := "/project/.wxt"
    hookEntries := [] }

/-! ## Helper lemmas -/

theorem string_eq_of_data {a b : String} (h : a.data = b.data) : a = b :=
  congrArg String.mk h

theorem str_append_left_cancel {a x y : String} (h : a ++ x = a ++ y) : x = y := by
  apply string_eq_of_data
  have hd : a.data ++ x.data = a.data ++ y.data := by
    simpa [String.data_append] using congrArg String.data h
  exact List.append_cancel_left hd

theorem str_append_right_cancel {a x y : String} (h : x ++ a = y ++ a) : x = y := by
  apply string_eq_of_data
  have hd : x.data ++ a.data = y.data ++ a.data := by
    simpa [String.data_append] using congrArg String.data h
  exact List.append_cancel_right hd

theorem packageRefLine_inj {a b : String} (h : packageRefLine a = packageRefLine b) : a = b := by
  unfold packageRefLine at h
  exact str_append_left_cancel (str_append_right_cancel h)

theorem fileRefLine_eq_packageRefLine (wxtDir p : String) :
    fileRefLine wxtDir p = packageRefLine ("./" ++ fileRefPath wxtDir p) := by
  unfold fileRefLine packageRefLine
  rw [← String.append_assoc]
  rfl

theorem textBeginsWith_append_of {m pre : String} (h : textBeginsWith m pre) (x : String) :
    textBeginsWith m (pre ++ x) := by
  unfold textBeginsWith at h ⊢
  have hsplit : m.data ++ pre.data.drop m.data.length = pre.data := by
    conv_rhs => rw [← List.take_append_drop m.data.length pre.data]
    rw [h]
  rw [String.data_append, ← hsplit, List.append_assoc]
  exact List.take_left' rfl

theorem textBeginsWith_self_append (m x : String) : textBeginsWith m (m ++ x) := by
  apply textBeginsWith_append_of
  unfold textBeginsWith
  exact List.take_length m.data

theorem intercalate_go_head (s : String) :
    ∀ (l : List String) (acc : String), ∃ r, String.intercalate.go acc s l = acc ++ r := by
  intro l
  induction l with
  | nil =>
      intro acc
      exact ⟨"", by simp [String.intercalate.go]⟩
  | cons a as ih =>
      intro acc
      obtain ⟨r, hr⟩ := ih (acc ++ s ++ a)
      refine ⟨s ++ a ++ r, ?_⟩
      have h2 : String.intercalate.go acc s (a :: as) = String.intercalate.go (acc ++ s ++ a) s as := rfl
      rw [h2, hr]
      simp only [String.append_assoc]

theorem intercalate_cons_head (s a : String) (l : List String) :
    ∃ r, String.intercalate s (a :: l) = a ++ r := by
  simpa [String.intercalate] using intercalate_go_head s l a

theorem str_ne_empty_of_data_ne {a : String} (h : a.data ≠ []) : a ≠ "" := by
  intro he
  exact h (by simp [he])

theorem unionLine_ne_empty (p : String) : "    | \"/" ++ p ++ "\"" ≠ "" := by
  apply str_ne_empty_of_data_ne
  simp [String.data_append]

theorem foldl_ref_append (wxtDir : String) (es : List WxtDirEntry) :
    ∀ acc : List String,
      es.foldl
          (fun lines ref =>
            match ref with
            | WxtDirEntry.module m => lines ++ [packageRefLine m]
            | WxtDirEntry.file p _ tsRef => if tsRef then lines ++ [fileRefLine wxtDir p] else lines)
          acc
        = acc ++ es.filterMap (refDirective wxtDir) := by
  induction es with
  | nil => intro acc; simp
  | cons e es ih =>
      intro acc
      cases e with
      | module m => simp [List.foldl_cons, ih, refDirective, List.filterMap_cons]
      | file p t r => cases r <;> simp [List.foldl_cons, ih, refDirective, List.filterMap_cons]

theorem mainDeclLines_eq (wxtDir : String) (es : List WxtDirEntry) :
    mainDeclLines wxtDir es = "// Generated by wxt" :: es.filterMap (refDirective wxtDir) := by
  unfold mainDeclLines
  rw [foldl_ref_append]
  rfl

theorem sortStrings_sorted (l : List String) :
    List.Sorted (fun a b : String => a ≤ b) (sortStrings l) :=
  List.sorted_insertionSort _ l

theorem sortStrings_perm (l : List String) : List.Perm (sortStrings l) l :=
  List.perm_insertionSort _ l

/-- Pass input with no entrypoints and no public or hook paths. -/
def emptyPathsInput : PassInput :=
  { sampleInput with entrypoints := [], publicFiles := [], hookPublicPaths := [] }

theorem intercalate_unionLines_ne_empty {ps : List String} (h : ps ≠ []) :
    String.intercalate "\n" (pathsUnionLines ps) ≠ "" := by
  have hlen : (sortStrings (ps.map normalizePath)).length = (ps.map normalizePath).length :=
    (sortStrings_perm _).length_eq
  have hne : sortStrings (ps.map normalizePath) ≠ [] := by
    intro h0
    rw [h0] at hlen
    simp at hlen
    exact h (List.eq_nil_of_length_eq_zero hlen.symm)
  obtain ⟨q, qs, hq⟩ := List.exists_cons_of_ne_nil hne
  unfold pathsUnionLines
  rw [hq, List.map_cons]
  obtain ⟨r, hr⟩ := intercalate_cons_head "\n" ("    | \"/" ++ q ++ "\"") (qs.map (fun p => "    | \"/" ++ p ++ "\""))
  rw [hr]
  intro h0
  apply unionLine_ne_empty q
  apply string_eq_of_data
  have hd := congrArg String.data h0
  rw [String.data_append] at hd
  exact (List.append_eq_nil.mp hd).1

/-- C2: for every list of entrypoints and public asset paths (including
hook-appended paths), the paths declaration entry renders the PublicPath
union from the forward-slash-normalized paths sorted lexicographically,
each member a quoted string literal prefixed with a slash; and when the
combined path list is empty the union is rendered as `never` rather than
an empty union. -/
theorem claim_c2_paths_union (i : PassInput) :
    List.Sorted (fun a b : String => a ≤ b) (sortStrings ((publicPaths i).map normalizePath))
    ∧ List.Perm (sortStrings ((publicPaths i).map normalizePath)) ((publicPaths i).map normalizePath)
    ∧ pathsUnionLines (publicPaths i)
        = (sortStrings ((publicPaths i).map normalizePath)).map (fun p => "    | \"/" ++ p ++ "\"")
    ∧ (publicPaths i = [] →
        getPathsDeclarationEntry i
          = WxtDirEntry.file "types/paths.d.ts"
              (pathsTemplatePre ++ "    | never" ++ pathsTemplatePost) true)
    ∧ (publicPaths i ≠ [] →
        getPathsDeclarationEntry i
          = WxtDirEntry.file "types/paths.d.ts"
              (pathsTemplatePre
                ++ String.intercalate "\n" (pathsUnionLines (publicPaths i))
                ++ pathsTemplatePost) true) := by
  refine ⟨sortStrings_sorted _, sortStrings_perm _, rfl, ?_, ?_⟩
  · intro h
    simp only [getPathsDeclarationEntry, h]
    rfl
  · intro h
    simp only [getPathsDeclarationEntry]
    rw [if_neg (intercalate_unionLines_ne_empty h)]

theorem claim_c2_paths_union_witness :
    (publicPaths sampleInput ≠ []
      ∧ getPathsDeclarationEntry sampleInput
          = WxtDirEntry.file "types/paths.d.ts"
              (pathsTemplatePre
                ++ String.intercalate "\n" (pathsUnionLines (publicPaths sampleInput))
                ++ pathsTemplatePost) true)
    ∧ (publicPaths emptyPathsInput = []
      ∧ getPathsDeclarationEntry emptyPathsInput
          = WxtDirEntry.file "types/paths.d.ts"
              (pathsTemplatePre ++ "    | never" ++ pathsTemplatePost) true) :=
  ⟨⟨by decide, (claim_c2_paths_union sampleInput).2.2.2.2 (by decide)⟩,
   ⟨by decide, (claim_c2_paths_union emptyPathsInput).2.2.2.1 (by decide)⟩⟩

/-- C3: for every input message catalog with n message keys, the i18n
declaration entry contains exactly n per-key getMessage overloads (one per
key, in catalog order) followed by exactly one catch-all overload whose
first-parameter type is the union of all n literal key strings; a catalog
with keys greet and farewell yields exactly 3 overloads. -/
theorem claim_c3_i18n_overloads (raw : List (String × RawMessage)) :
    (i18nOverrides (parseI18nMessages raw)).length = (parseI18nMessages raw).length + 1
    ∧ (∀ k, (hk : k < (parseI18nMessages raw).length) →
        (i18nOverrides (parseI18nMessages raw))[k]? =
          some (renderGetMessageOverload
            ("\"" ++ ((parseI18nMessages raw).get ⟨k, hk⟩).name ++ "\"")
            ((parseI18nMessages raw).get ⟨k, hk⟩).description
            ((parseI18nMessages raw).get ⟨k, hk⟩).message))
    ∧ (i18nOverrides (parseI18nMessages raw)).getLast? =
        some (renderGetMessageOverload
          (String.intercalate " | " ((parseI18nMessages raw).map (fun m => "\"" ++ m.name ++ "\"")))
          none none)
    ∧ ∀ i : PassInput, i.i18nSource = some (Except.ok raw) →
        getI18nDeclarationEntry i = Except.ok (WxtDirEntry.file "types/i18n.d.ts"
          (i18nTemplatePre
            ++ String.intercalate "\n" (i18nOverrides (parseI18nMessages raw))
            ++ i18nTemplatePost) true) := by
  refine ⟨by simp [i18nOverrides], ?_, ?_, ?_⟩
  · intro k hk
    unfold i18nOverrides
    rw [List.getElem?_append, if_pos (by simpa using hk)]
    simp [List.getElem?_map, List.getElem?_eq_getElem hk]
  · unfold i18nOverrides
    exact List.getLast?_concat _
  · intro i hi
    unfold getI18nDeclarationEntry
    rw [hi]

theorem claim_c3_i18n_overloads_witness :
    (0 < (parseI18nMessages sampleCatalog).length
      ∧ (i18nOverrides (parseI18nMessages sampleCatalog))[0]? =
          some (renderGetMessageOverload
            ("\"" ++ ((parseI18nMessages sampleCatalog).get ⟨0, by decide⟩).name ++ "\"")
            ((parseI18nMessages sampleCatalog).get ⟨0, by decide⟩).description
            ((parseI18nMessages sampleCatalog).get ⟨0, by decide⟩).message))
    ∧ getI18nDeclarationEntry sampleInput = Except.ok (WxtDirEntry.file "types/i18n.d.ts"
        (i18nTemplatePre
          ++ String.intercalate "\n" (i18nOverrides (parseI18nMessages sampleCatalog))
          ++ i18nTemplatePost) true)
    ∧ (i18nOverrides (parseI18nMessages sampleCatalog)).length = 3 :=
  ⟨⟨by decide, (claim_c3_i18n_overloads sampleCatalog).2.1 0 (by decide)⟩,
   (claim_c3_i18n_overloads sampleCatalog).2.2.2 sampleInput rfl,
   by decide⟩

/-- Whether an entry cannot produce the reference directive of the main
declaration file: its module name, or the output-root-relative path of its
file reference, differs from that of `wxt.d.ts`. -/
def avoidsMainPath (wxtDir : String) : WxtDirEntry → Bool
  | WxtDirEntry.module m => m != "./" ++ fileRefPath wxtDir "wxt.d.ts"
  | WxtDirEntry.file p _ _ => fileRefPath wxtDir p != fileRefPath wxtDir "wxt.d.ts"

/-- C1: for every finalized entry collection, the main declaration entry
composed by getMainDeclarationEntry contains exactly one reference
directive per contributing entry (module entries become a package
reference by name; file entries with the emit-reference flag become a file
reference by output-root-relative path; file entries without the flag
contribute nothing), the directives appear in exactly the order the
entries were produced, and the main declaration file never contains a
reference to itself: it is composed from the collection before being
appended, and whenever no entry resolves to the path of the main file the
self directive does not occur among its lines. -/
theorem claim_c1_main_declaration (wxtDir : String) (es : List WxtDirEntry)
    (hsafe : ∀ e ∈ es, avoidsMainPath wxtDir e = true) :
    getMainDeclarationEntry wxtDir es
        = WxtDirEntry.file "wxt.d.ts"
            (String.intercalate "\n"
              ("// Generated by wxt" :: es.filterMap (refDirective wxtDir)) ++ "\n") false
    ∧ (∀ m, refDirective wxtDir (WxtDirEntry.module m) = some (packageRefLine m))
    ∧ (∀ p t, refDirective wxtDir (WxtDirEntry.file p t true) = some (fileRefLine wxtDir p))
    ∧ (∀ p t, refDirective wxtDir (WxtDirEntry.file p t false) = none)
    ∧ fileRefLine wxtDir "wxt.d.ts" ∉ mainDeclLines wxtDir es
    ∧ (∀ i : PassInput, ∀ es2, buildEntries i = Except.ok es2 →
        ∃ pre, es2 = pre ++ [getMainDeclarationEntry i.wxtDir pre]) := by
  refine ⟨?_, fun m => rfl, fun p t => rfl, fun p t => rfl, ?_, ?_⟩
  · unfold getMainDeclarationEntry
    rw [mainDeclLines_eq]
  · rw [mainDeclLines_eq]
    intro hmem
    rcases List.mem_cons.mp hmem with hhead | htail
    · have hlen := congrArg (fun s : String => s.data.length) hhead
      simp [fileRefLine, String.data_append] at hlen
    · obtain ⟨e, he, hdir⟩ := List.mem_filterMap.mp htail
      have hs := hsafe e he
      cases e with
      | module m =>
          simp only [refDirective, Option.some.injEq] at hdir
          rw [fileRefLine_eq_packageRefLine] at hdir
          have := packageRefLine_inj hdir
          simp [avoidsMainPath, this] at hs
      | file p t r =>
          cases r with
          | false => simp [refDirective] at hdir
          | true =>
              simp only [refDirective, if_pos, Option.some.injEq] at hdir
              rw [fileRefLine_eq_packageRefLine, fileRefLine_eq_packageRefLine] at hdir
              have h2 := str_append_left_cancel (packageRefLine_inj hdir)
              simp [avoidsMainPath, h2] at hs
  · intro i es2 hes2
    unfold buildEntries at hes2
    cases hi : getI18nDeclarationEntry i with
    | error e => rw [hi] at hes2; cases hes2
    | ok v =>
        rw [hi] at hes2
        simp only [Except.ok.injEq] at hes2
        exact ⟨preMainEntries i v, hes2.symm⟩

theorem claim_c1_main_declaration_witness :
    fileRefLine "/project/.wxt" "wxt.d.ts"
      ∉ mainDeclLines "/project/.wxt"
          [WxtDirEntry.module "wxt/vite-builder-env",
           WxtDirEntry.file "types/paths.d.ts" "T" true,
           WxtDirEntry.file "tsconfig.json" "X" false] :=
  (claim_c1_main_declaration "/project/.wxt"
    [WxtDirEntry.module "wxt/vite-builder-env",
     WxtDirEntry.file "types/paths.d.ts" "T" true,
     WxtDirEntry.file "tsconfig.json" "X" false] (by decide)).2.2.2.2.1

/-- Pass input whose default-locale file holds malformed JSON. -/
def malformedInput : PassInput :=
  { sampleInput with i18nSource := some (Except.error ()) }

/-- C4: if parsing the default-locale messages file throws, generateWxtDir
propagates the error and no file entry of the pass is written to disk;
writes are only issued from a fully finalized entry collection, so a
failure during entry collection leaves the on-disk type layer
unchanged. -/
theorem claim_c4_malformed_locale_aborts (i : PassInput)
    (h : i.i18nSource = some (Except.error ())) :
    generateWxtDir i = Except.error ()
    ∧ (∀ ws, generateWxtDir i ≠ Except.ok ws)
    ∧ (∀ j : PassInput, ∀ es, buildEntries j = Except.ok es →
        generateWxtDir j = Except.ok (es.filterMap (writeOp j.wxtDir))) := by
  have hb : buildEntries i = Except.error () := by
    simp [buildEntries, getI18nDeclarationEntry, h]
  refine ⟨?_, ?_, ?_⟩
  · simp [generateWxtDir, hb]
  · intro ws
    simp [generateWxtDir, hb]
  · intro j es hes
    simp [generateWxtDir, hes]

theorem claim_c4_malformed_locale_aborts_witness :
    malformedInput.i18nSource = some (Except.error ())
    ∧ generateWxtDir malformedInput = Except.error () :=
  ⟨rfl, (claim_c4_malformed_locale_aborts malformedInput rfl).1⟩

theorem not_marker_of_brace {s : String} (h : textBeginsWith "\x7b" s) :
    ¬ textBeginsWith genMarker s := by
  intro h2
  unfold textBeginsWith at h h2
  have h1 : s.data.take 1 = "\x7b".data := h
  have hm : s.data.take 1 = genMarker.data.take 1 := by
    simpa [List.take_take] using congrArg (List.take 1) h2
  exact absurd (h1.symm.trans hm) (by decide)

/-- C5 as amended: the paths, i18n, globals and main declaration files all
begin with the machine-generated marker comment, but the generated
tsconfig.json does not: it begins with an opening brace (JSON has no
comments). -/
theorem claim_c5_generated_marker (i : PassInput) :
    textBeginsWith genMarker (entryText (getPathsDeclarationEntry i))
    ∧ textBeginsWith genMarker (entryText (getGlobalsDeclarationEntry i))
    ∧ (∀ es : List WxtDirEntry,
        textBeginsWith genMarker (entryText (getMainDeclarationEntry i.wxtDir es)))
    ∧ (∀ e, getI18nDeclarationEntry i = Except.ok e → textBeginsWith genMarker (entryText e))
    ∧ textBeginsWith "\x7b" (entryText (getTsConfigEntry i))
    ∧ ¬ textBeginsWith genMarker (entryText (getTsConfigEntry i)) := by
  have hpre : textBeginsWith genMarker pathsTemplatePre := by decide
  have hipre : textBeginsWith genMarker i18nTemplatePre := by decide
  have htspre : textBeginsWith "\x7b" tsconfigTemplatePre := by decide
  have hts : textBeginsWith "\x7b" (entryText (getTsConfigEntry i)) :=
    textBeginsWith_append_of (textBeginsWith_append_of (textBeginsWith_append_of
      (textBeginsWith_append_of (textBeginsWith_append_of (textBeginsWith_append_of
        htspre _) _) _) _) _) _
  refine ⟨?_, ?_, ?_, ?_, hts, not_marker_of_brace hts⟩
  · exact textBeginsWith_append_of (textBeginsWith_append_of hpre _) _
  · obtain ⟨r, hr⟩ :=
      intercalate_cons_head "\n" "// Generated by wxt"
        ("interface ImportMetaEnv \x7b"
          :: ((i.buildGlobals ++ i.entrypointGlobals).map
                (fun g => "  readonly " ++ g.name ++ ": " ++ g.type ++ ";")
              ++ ["\x7d", "interface ImportMeta \x7b", "  readonly env: ImportMetaEnv", "\x7d", ""]))
    have heq : entryText (getGlobalsDeclarationEntry i) = "// Generated by wxt" ++ r := by
      rw [← hr]
      rfl
    rw [heq]
    exact textBeginsWith_self_append _ _
  · intro es
    obtain ⟨r, hr⟩ :=
      intercalate_cons_head "\n" "// Generated by wxt" (es.filterMap (refDirective i.wxtDir))
    show textBeginsWith genMarker (String.intercalate "\n" (mainDeclLines i.wxtDir es) ++ "\n")
    rw [mainDeclLines_eq, hr, String.append_assoc]
    exact textBeginsWith_self_append _ _
  · intro e he
    unfold getI18nDeclarationEntry at he
    cases hsrc : i.i18nSource with
    | none =>
        rw [hsrc] at he
        simp only [Except.ok.injEq] at he
        rw [← he]
        exact textBeginsWith_append_of (textBeginsWith_append_of hipre _) _
    | some ex =>
        cases ex with
        | error err => rw [hsrc] at he; cases he
        | ok raw =>
            rw [hsrc] at he
            simp only [Except.ok.injEq] at he
            rw [← he]
            exact textBeginsWith_append_of (textBeginsWith_append_of hipre _) _

theorem claim_c5_generated_marker_witness :
    getI18nDeclarationEntry sampleInput
        = Except.ok (WxtDirEntry.file "types/i18n.d.ts"
            (i18nTemplatePre
              ++ String.intercalate "\n" (i18nOverrides (parseI18nMessages sampleCatalog))
              ++ i18nTemplatePost) true)
    ∧ textBeginsWith genMarker
        (entryText (WxtDirEntry.file "types/i18n.d.ts"
          (i18nTemplatePre
            ++ String.intercalate "\n" (i18nOverrides (parseI18nMessages sampleCatalog))
            ++ i18nTemplatePost) true))
    ∧ textBeginsWith genMarker
        (entryText (getMainDeclarationEntry sampleInput.wxtDir [WxtDirEntry.module "wxt/vite-builder-env"])) :=
  ⟨rfl,
   (claim_c5_generated_marker sampleInput).2.2.2.1 _ rfl,
   (claim_c5_generated_marker sampleInput).2.2.1 [WxtDirEntry.module "wxt/vite-builder-env"]⟩

/-- C5 counterexample: the tsconfig.json entry produced for the sample
input does not begin with the machine-generated marker comment, refuting
the claim that every generated file does. -/
theorem claim_c5_counterexample :
    ¬ textBeginsWith genMarker (entryText (getTsConfigEntry sampleInput)) := by
  decide

/-- The `tsReference` flag carried by an entry (false for module
entries). -/
def entryTsReference : WxtDirEntry → Bool
  | WxtDirEntry.module _ => false
  | WxtDirEntry.file _ _ r => r

/-- The i18n declaration entry generated from the sample catalog. -/
def i18nSampleEntry : WxtDirEntry :=
  WxtDirEntry.file "types/i18n.d.ts"
    (i18nTemplatePre
      ++ String.intercalate "\n" (i18nOverrides (parseI18nMessages sampleCatalog))
      ++ i18nTemplatePost) true

/-- Sample input with the chrome extension API flavor configured. -/
def chromeInput : PassInput := { sampleInput with extensionApiChrome := true }

/-- Finalized entries of a pass, or the empty list when the pass fails. -/
def passEntries (i : PassInput) : List WxtDirEntry :=
  match buildEntries i with
  | Except.ok es => es
  | Except.error _ => []

/-- Ordering property asserted by the claim at inputs whose hard-coded
entries are exactly the module-reference entries: every module-reference
entry precedes every file entry. -/
def modulesFirst (es : List WxtDirEntry) : Prop :=
  ∀ (a b : Fin es.length), a.1 < b.1 → (es.get b).isModule = true → (es.get a).isModule = true

instance (es : List WxtDirEntry) : Decidable (modulesFirst es) := by
  unfold modulesFirst
  infer_instance

/-- C6 counterexample: in a chrome-flavored pass with no user modules and
no hook entries the hard-coded entries are exactly the module-reference
entries, so the claimed ordering (all hard-coded entries before all
generator entries) would force the module entries to form a prefix; the
actual collection is [vite-builder-env, paths, i18n, globals,
types-chrome, tsconfig, main], whose `@types/chrome` module entry sits
after three generator file entries. -/
theorem claim_c6_counterexample :
    buildEntries chromeInput ≠ Except.error ()
    ∧ passEntries chromeInput ≠ []
    ∧ ¬ modulesFirst (passEntries chromeInput) := by
  refine ⟨by decide, by decide, by decide⟩

/-- C6 as amended: the entry collection of every successful pass is, in
order, the hard-coded vite-builder-env module entry and the node-module
user module references, then the paths, i18n and globals generator
entries, then the hard-coded types-chrome module entry when the chrome API
flavor is configured, then the tsconfig entry, then the hook-contributed
entries, and the main declaration entry always last. -/
theorem claim_c6_entry_order (i : PassInput) (e : WxtDirEntry)
    (h : getI18nDeclarationEntry i = Except.ok e) :
    buildEntries i = Except.ok (
      [WxtDirEntry.module "wxt/vite-builder-env"]
      ++ i.userModules.filterMap (fun m => if m.2 then some (WxtDirEntry.module m.1) else none)
      ++ [getPathsDeclarationEntry i, e, getGlobalsDeclarationEntry i]
      ++ (if i.extensionApiChrome then [WxtDirEntry.module "@types/chrome"] else [])
      ++ [getTsConfigEntry i]
      ++ i.hookEntries
      ++ [getMainDeclarationEntry i.wxtDir (preMainEntries i e)]) := by
  unfold buildEntries
  rw [h]
  rfl

theorem claim_c6_entry_order_witness :
    buildEntries sampleInput = Except.ok (
      [WxtDirEntry.module "wxt/vite-builder-env"]
      ++ sampleInput.userModules.filterMap (fun m => if m.2 then some (WxtDirEntry.module m.1) else none)
      ++ [getPathsDeclarationEntry sampleInput, i18nSampleEntry, getGlobalsDeclarationEntry sampleInput]
      ++ (if sampleInput.extensionApiChrome then [WxtDirEntry.module "@types/chrome"] else [])
      ++ [getTsConfigEntry sampleInput]
      ++ sampleInput.hookEntries
      ++ [getMainDeclarationEntry sampleInput.wxtDir (preMainEntries sampleInput i18nSampleEntry)]) :=
  claim_c6_entry_order sampleInput i18nSampleEntry rfl

/-- Sample input matching the alias-rewriting example of the spec. -/
def aliasSampleInput : PassInput :=
  { sampleInput with aliases := [("@", "/project/src")], wxtDir := "/project/.generated" }

theorem flatMap_pair_length {α : Type} (f : α → List String)
    (hf : ∀ x, (f x).length = 2) :
    ∀ l : List α, (l.flatMap f).length = 2 * l.length := by
  intro l
  induction l with
  | nil => simp
  | cons a as ih =>
      simp only [List.flatMap_cons, List.length_append, ih, hf, List.length_cons]
      omega

/-- C7: for every configured alias name mapped to a directory, the
generated tsconfig paths map contains exactly two entries, the alias and
its `/*` glob form, both pointing at the directory rewritten relative to
the output root, with `./` prepended exactly when the relative path does
not already start with `.` or `/`; the alias `@` to `/project/src` with
output root `/project/.generated` renders `../src` and `../src/*`. -/
theorem claim_c7_alias_paths (i : PassInput) :
    (aliasPathsLines i).length = 2 * i.aliases.length
    ∧ (∀ a d, (a, d) ∈ i.aliases →
        ("      \"" ++ a ++ "\": [\"" ++ getTsconfigPath i.wxtDir d ++ "\"]") ∈ aliasPathsLines i
        ∧ ("      \"" ++ a ++ "/*\": [\"" ++ getTsconfigPath i.wxtDir d ++ "/*\"]") ∈ aliasPathsLines i)
    ∧ (∀ dir p,
        (strStartsWith (normalizePath (relativePath dir p)) "."
          || strStartsWith (normalizePath (relativePath dir p)) "/") = false →
        getTsconfigPath dir p = "./" ++ normalizePath (relativePath dir p))
    ∧ (∀ dir p,
        (strStartsWith (normalizePath (relativePath dir p)) "."
          || strStartsWith (normalizePath (relativePath dir p)) "/") = true →
        getTsconfigPath dir p = normalizePath (relativePath dir p))
    ∧ getTsconfigPath "/project/.generated" "/project/src" = "../src"
    ∧ aliasPathsLines aliasSampleInput
        = ["      \"@\": [\"../src\"]", "      \"@/*\": [\"../src/*\"]"] := by
  refine ⟨?_, ?_, ?_, ?_, by decide, by decide⟩
  · unfold aliasPathsLines
    apply flatMap_pair_length
    intro x
    rfl
  · intro a d had
    constructor
    · exact List.mem_flatMap.mpr ⟨(a, d), had, by simp⟩
    · exact List.mem_flatMap.mpr ⟨(a, d), had, by simp⟩
  · intro dir p h
    simp [getTsconfigPath, h]
  · intro dir p h
    simp [getTsconfigPath, h]

theorem claim_c7_alias_paths_witness :
    (("@", "/project/src") ∈ aliasSampleInput.aliases
      ∧ ("      \"" ++ "@" ++ "\": [\"" ++ getTsconfigPath aliasSampleInput.wxtDir "/project/src" ++ "\"]")
          ∈ aliasPathsLines aliasSampleInput)
    ∧ ((strStartsWith (normalizePath (relativePath "/a" "/a/b")) "."
          || strStartsWith (normalizePath (relativePath "/a" "/a/b")) "/") = false
      ∧ getTsconfigPath "/a" "/a/b" = "./" ++ normalizePath (relativePath "/a" "/a/b")) :=
  ⟨⟨by decide, ((claim_c7_alias_paths aliasSampleInput).2.1 "@" "/project/src" (by decide)).1⟩,
   ⟨by decide, (claim_c7_alias_paths aliasSampleInput).2.2.1 "/a" "/a/b" (by decide)⟩⟩

/-- Sample input whose hook appends a file entry reusing the output path
of the paths generator. -/
def dupPathInput : PassInput :=
  { sampleInput with
      hookEntries := [WxtDirEntry.file "types/paths.d.ts" "// hook-contributed duplicate" true] }

/-- C8 counterexample: when a hook entry reuses the output path of the
paths generator, the pass does not fail: it completes successfully and
issues two writes to the same resolved path, refuting the claim that a
duplicate output path makes the pass fail loudly with an error. -/
theorem claim_c8_counterexample :
    (match generateWxtDir dupPathInput with
      | Except.ok _ => true
      | Except.error _ => false) = true
    ∧ (match generateWxtDir dupPathInput with
      | Except.ok ws => ws.countP (fun w => w.1 == "/project/.wxt/types/paths.d.ts")
      | Except.error _ => 0) = 2 := by
  refine ⟨by decide, by decide⟩

theorem writeOp_filterMap_length (wxtDir : String) (es : List WxtDirEntry) :
    (es.filterMap (writeOp wxtDir)).length = es.countP (fun e => !e.isModule) := by
  induction es with
  | nil => rfl
  | cons e es ih =>
      cases e with
      | module m => simpa [writeOp, WxtDirEntry.isModule, List.countP_cons] using ih
      | file p t r => simpa [writeOp, WxtDirEntry.isModule, List.countP_cons] using ih

/-- C8 as amended: the pass performs no duplicate-output-path detection:
every finalized collection is written as-is, with exactly one write per
file entry (duplicate paths included), and entry collection never fails
because of a duplicate path. -/
theorem claim_c8_no_duplicate_detection (i : PassInput) (es : List WxtDirEntry)
    (h : buildEntries i = Except.ok es) :
    generateWxtDir i = Except.ok (es.filterMap (writeOp i.wxtDir))
    ∧ (es.filterMap (writeOp i.wxtDir)).length = es.countP (fun e => !e.isModule) := by
  constructor
  · simp [generateWxtDir, h]
  · exact writeOp_filterMap_length i.wxtDir es

/-- Finalized entries of the duplicate-path sample pass. -/
def dupPathEntries : List WxtDirEntry :=
  preMainEntries dupPathInput i18nSampleEntry
    ++ [getMainDeclarationEntry dupPathInput.wxtDir (preMainEntries dupPathInput i18nSampleEntry)]

theorem claim_c8_no_duplicate_detection_witness :
    generateWxtDir dupPathInput
      = Except.ok (dupPathEntries.filterMap (writeOp dupPathInput.wxtDir))
    ∧ (dupPathEntries.filterMap (writeOp dupPathInput.wxtDir)).length
        = dupPathEntries.countP (fun e => !e.isModule) :=
  claim_c8_no_duplicate_detection dupPathInput dupPathEntries rfl

/-- Finalized entries of the sample pass. -/
def sampleEntries : List WxtDirEntry :=
  preMainEntries sampleInput i18nSampleEntry
    ++ [getMainDeclarationEntry sampleInput.wxtDir (preMainEntries sampleInput i18nSampleEntry)]

/-- C9: the generation pass is a pure function of its inputs: two runs on
equal inputs produce equal results, and in particular byte-identical
content for every generated file path. All sources of variation (locale
catalog, hook contributions, configuration, filesystem state) are explicit
inputs of the embedding, and the pass consults nothing else. -/
theorem claim_c9_deterministic (i j : PassInput) (h : i = j) :
    generateWxtDir i = generateWxtDir j
    ∧ ∀ p ws1 ws2, generateWxtDir i = Except.ok ws1 → generateWxtDir j = Except.ok ws2 →
        lookupWrite p ws1 = lookupWrite p ws2 := by
  subst h
  refine ⟨rfl, ?_⟩
  intro p ws1 ws2 h1 h2
  have h3 : Except.ok (ε := Unit) ws1 = Except.ok ws2 := h1.symm.trans h2
  simp only [Except.ok.injEq] at h3
  rw [h3]

theorem claim_c9_deterministic_witness :
    generateWxtDir sampleInput = generateWxtDir sampleInput
    ∧ lookupWrite "/project/.wxt/wxt.d.ts" (sampleEntries.filterMap (writeOp sampleInput.wxtDir))
        = lookupWrite "/project/.wxt/wxt.d.ts" (sampleEntries.filterMap (writeOp sampleInput.wxtDir)) :=
  ⟨(claim_c9_deterministic sampleInput sampleInput rfl).1,
   (claim_c9_deterministic sampleInput sampleInput rfl).2
     "/project/.wxt/wxt.d.ts" _ _ rfl rfl⟩

/-- C10: the tsconfig entry is produced without the emit-reference flag,
so it contributes no directive to the main declaration; among the core
file entries only the paths, i18n and globals declarations are
referenced. -/
theorem claim_c10_tsconfig_not_referenced (i : PassInput) :
    entryTsReference (getTsConfigEntry i) = false
    ∧ refDirective i.wxtDir (getTsConfigEntry i) = none
    ∧ (∀ e, getI18nDeclarationEntry i = Except.ok e →
        [getPathsDeclarationEntry i, e, getGlobalsDeclarationEntry i, getTsConfigEntry i].filterMap
            (refDirective i.wxtDir)
          = [fileRefLine i.wxtDir "types/paths.d.ts",
             fileRefLine i.wxtDir "types/i18n.d.ts",
             fileRefLine i.wxtDir "types/globals.d.ts"]) := by
  refine ⟨rfl, rfl, ?_⟩
  intro e he
  unfold getI18nDeclarationEntry at he
  cases hsrc : i.i18nSource with
  | none =>
      rw [hsrc] at he
      simp only [Except.ok.injEq] at he
      rw [← he]
      rfl
  | some ex =>
      cases ex with
      | error err => rw [hsrc] at he; cases he
      | ok raw =>
          rw [hsrc] at he
          simp only [Except.ok.injEq] at he
          rw [← he]
          rfl

theorem claim_c10_tsconfig_not_referenced_witness :
    [getPathsDeclarationEntry sampleInput, i18nSampleEntry,
     getGlobalsDeclarationEntry sampleInput, getTsConfigEntry sampleInput].filterMap
        (refDirective sampleInput.wxtDir)
      = [fileRefLine sampleInput.wxtDir "types/paths.d.ts",
         fileRefLine sampleInput.wxtDir "types/i18n.d.ts",
         fileRefLine sampleInput.wxtDir "types/globals.d.ts"] :=
  (claim_c10_tsconfig_not_referenced sampleInput).2.2 i18nSampleEntry rfl
